import Mathlib

/-!
Verification of the sequential workload-restart orchestrator (kube888.py).

The definitions below are a shallow embedding of the script: Python strings
become `String` (with the split/startswith operations modelled on character
lists), pod lifecycle phases become an inductive type, API calls that may
raise become `Except`/`Option` values supplied by an environment, and the
polling loops become explicit recursions instrumented with the number of
attempts made and the simulated time slept.
-/

/-- Lifecycle phase of a pod, the value of `pod.status.phase`. -/
inductive Phase where
  | Pending
  | Running
  | Succeeded
  | Failed
  | Unknown
  deriving DecidableEq

/-- The status of a pod: its phase and the per-container readiness flags
(`pod.status.container_statuses`); an empty list models both `None` and an
empty collection, which Python treats identically (falsy). -/
structure PodStatus where
  phase : Phase
  containerStatuses : List Bool
  deriving DecidableEq

/-- A pod record: namespace, name, and status. -/
structure Pod where
  ns : String
  name : String
  status : PodStatus
  deriving DecidableEq

/-- Characters of `l` strictly before the first `'-'`: the character-level
content of Python `s.split('-')[0]`. -/
def splitFirst : List Char → List Char
  | [] => []
  | c :: cs => if c = '-' then [] else c :: splitFirst cs

/-- Python `target.startswith(pname.split('-')[0])`, the successor name test
used in `restart_pod` (kube888.py line 118). -/
def startsWithFirstSegment (pname target : String) : Bool :=
  (splitFirst pname.toList).isPrefixOf target.toList

/-- One poll of `wait_for_pod_ready` (kube888.py lines 75-92): `none` models
the `read_namespaced_pod` call raising (the `except` branch, which does not
return); `some st` is the pod status the call observed.  The poll reports
ready when the phase is Running and all reported container flags are true,
when the phase is Running and no container flags are reported, or when the
phase is Succeeded. -/
def checkPodReady : Option PodStatus → Bool
  | none => false
  | some st =>
    if st.phase = Phase.Running then
      if st.containerStatuses = [] then true
      else st.containerStatuses.all (fun b => b)
    else if st.phase = Phase.Succeeded then true
    else false

/-- The `while time.time() - start_time < timeout` loop of
`wait_for_pod_ready` (kube888.py lines 74-94).  `obs j` is what the j-th
`read_namespaced_pod` call yields.  Each iteration that does not return ends
with `time.sleep(interval)` (the source hard-codes interval 5); `elapsed`
is the time slept so far and `i` the number of polls already made.  Returns
the result together with the total number of poll attempts performed. -/
def waitLoop (obs : Nat → Option PodStatus) (timeout interval : Nat)
    (hI : 0 < interval) (elapsed i : Nat) : Bool × Nat :=
  if h : elapsed < timeout then
    if checkPodReady (obs i) then (true, i + 1)
    else waitLoop obs timeout interval hI (elapsed + interval) (i + 1)
  else (false, i)
termination_by timeout - elapsed
decreasing_by simp_wf; omega

/-- `wait_for_pod_ready` (kube888.py lines 69-97): default timeout 300, the
sleep between polls is the hard-coded constant 5. -/
def wait_for_pod_ready (obs : Nat → Option PodStatus) (timeout : Nat := 300) :
    Bool × Nat :=
  waitLoop obs timeout 5 (by omega) 0 0

/-- The environment one `restart_pod` call runs against: the outcome of the
`delete_namespaced_pod` call, and for each retry `j` the outcome of the j-th
`list_namespaced_pod` call (`Except.error` models the call raising). -/
structure RestartEnv where
  deleteResult : Except String Unit
  listings : Nat → Except String (List Pod)

/-- The successor test of `restart_pod` (kube888.py lines 118-119): the
listed pod's name starts with the candidate name's first hyphen-delimited
segment and its phase is Running or Succeeded.  Container-readiness flags
are not consulted. -/
def successorMatch (pname : String) (p : Pod) : Bool :=
  startsWithFirstSegment pname p.name &&
    (p.status.phase == Phase.Running || p.status.phase == Phase.Succeeded)

/-- The successor-discovery retry loop of `restart_pod` (kube888.py lines
113-125): `fuel` is the remaining retries out of `max_retries = 30`, `i` the
index of the next fresh namespace listing, `slept` the time slept so far
(every attempt that does not return sleeps 5, in both the no-match and the
exception branch).  Returns (success, attempts made, total time slept). -/
def succLoop (listings : Nat → Except String (List Pod)) (pname : String) :
    Nat → Nat → Nat → Bool × Nat × Nat
  | 0, i, slept => (false, i, slept)
  | fuel + 1, i, slept =>
    match listings i with
    | Except.ok pods =>
      if pods.any (successorMatch pname) then (true, i + 1, slept)
      else succLoop listings pname fuel (i + 1) (slept + 5)
    | Except.error _ => succLoop listings pname fuel (i + 1) (slept + 5)

/-- Observable control-plane side effects of a run that the temporal claims
talk about: the completed 10-unit pre-cycle confirmation delay, and each
`delete_namespaced_pod` (eviction) call issued. -/
inductive Event where
  | preCycleDelay
  | deleteCall (ns name : String)
  deriving DecidableEq

/-- Tests whether an event is an eviction call. -/
def isDeleteCall : Event → Bool
  | Event.deleteCall _ _ => true
  | _ => false

/-- `restart_pod` (kube888.py lines 99-132): the eviction call is always
issued first; if it raises, the outer `except` returns False.  Otherwise the
successor-discovery loop runs with 30 retries.  Returns the boolean result
together with the eviction calls issued. -/
def restart_pod (env : RestartEnv) (ns pname : String) : Bool × List Event :=
  match env.deleteResult with
  | Except.error _ => (false, [Event.deleteCall ns pname])
  | Except.ok _ => ((succLoop env.listings pname 30 0 0).1, [Event.deleteCall ns pname])

/-- The inventory-filter predicate of `main` (kube888.py lines 187-188): the
pod's namespace is not protected and its phase is Running or Pending. -/
def restartablePred (systemNamespaces : List String) (p : Pod) : Bool :=
  !systemNamespaces.contains p.ns &&
    (p.status.phase == Phase.Running || p.status.phase == Phase.Pending)

/-- The inventory filter of `main` (kube888.py lines 181-189): the for-loop
that appends each pod passing `restartablePred` to `restartable_pods`. -/
def restartablePods (systemNamespaces : List String) (pods : List Pod) :
    List Pod :=
  pods.foldl
    (fun acc p => if restartablePred systemNamespaces p then acc ++ [p] else acc)
    []

/-- The protected namespaces hard-coded in `main` (kube888.py line 182). -/
def system_namespaces : List String := ["kube-system"]

/-- Per-candidate result recorded by the cycle: the candidate's identity and
whether `restart_pod` reported success. -/
structure RestartOutcome where
  ns : String
  name : String
  success : Bool
  deriving DecidableEq

/-- The outcome the cycle records for candidate `p` under environment `env`. -/
def outcomeOf (env : Pod → RestartEnv) (p : Pod) : RestartOutcome :=
  ⟨p.ns, p.name, (restart_pod (env p) p.ns p.name).1⟩

/-- Everything the restart cycle produces: ordered per-candidate outcomes,
the two counters `successful_restarts` and `failed_restarts`, and the
eviction calls issued. -/
structure CycleResult where
  outcomes : List RestartOutcome
  successCount : Nat
  failCount : Nat
  events : List Event
  deriving DecidableEq

/-- The sequential restart loop of `main` (kube888.py lines 218-234): each
candidate is processed by `restart_pod`, the counters are updated from its
boolean result, and processing always continues with the next candidate. -/
def runCycle (env : Pod → RestartEnv) : List Pod → CycleResult
  | [] => ⟨[], 0, 0, []⟩
  | p :: rest =>
    let res := restart_pod (env p) p.ns p.name
    let r := runCycle env rest
    ⟨⟨p.ns, p.name, res.1⟩ :: r.outcomes,
      if res.1 then r.successCount + 1 else r.successCount,
      if res.1 then r.failCount else r.failCount + 1,
      res.2 ++ r.events⟩

/-- The observable result of one `main` run: process exit status, the event
trace, the recorded outcomes, the two counters, and the printed total. -/
structure MainResult where
  exitCode : Nat
  events : List Event
  outcomes : List RestartOutcome
  successCount : Nat
  failCount : Nat
  totalProcessed : Nat
  deriving DecidableEq

/-- `main` (kube888.py lines 134-253).  `setup` is the combined
kubeconfig/client/snapshot step: `Except.error` models either no kubeconfig
path loading (sys.exit(1)) or the initial listing raising (caught by the
outer `except`, sys.exit(1)).  `interrupted` models Ctrl-C arriving during
the 10-unit confirmation delay (`except KeyboardInterrupt: sys.exit(0)`).
If the delay completes, `Event.preCycleDelay` is emitted and the cycle runs
over every candidate; the script then ends normally (exit status 0). -/
def mainRun (setup : Except Unit (List Pod)) (interrupted : Bool)
    (env : Pod → RestartEnv) : MainResult :=
  match setup with
  | Except.error _ => ⟨1, [], [], 0, 0, 0⟩
  | Except.ok pods =>
    let cands := restartablePods system_namespaces pods
    if cands.isEmpty then ⟨0, [], [], 0, 0, 0⟩
    else if interrupted then ⟨0, [], [], 0, 0, 0⟩
    else
      let r := runCycle env cands
      ⟨0, Event.preCycleDelay :: r.events, r.outcomes, r.successCount,
        r.failCount, cands.length⟩

/-- The j-th successor-discovery attempt succeeds: the j-th fresh namespace
listing returns (does not raise) and contains a pod matching the successor
test. -/
def attemptOk (listings : Nat → Except String (List Pod)) (pname : String)
    (j : Nat) : Prop :=
  ∃ pods, listings j = Except.ok pods ∧ pods.any (successorMatch pname) = true

/-! Concrete inputs used by the counterexample and the witnesses. -/

/-- A pod in an unprotected namespace with phase Running and one ready
container. -/
def podApp : Pod := ⟨"app", "web-1", ⟨Phase.Running, [true]⟩⟩

/-- A pod in the protected namespace. -/
def podSys : Pod := ⟨"kube-system", "dns-1", ⟨Phase.Running, [true]⟩⟩

/-- A prefix-matched Running successor for `podApp`. -/
def okTarget : Pod := ⟨"app", "web-2", ⟨Phase.Running, [true]⟩⟩

/-- An environment in which eviction succeeds and the first listing already
contains `okTarget`. -/
def okEnv : RestartEnv := ⟨Except.ok (), fun _ => Except.ok [okTarget]⟩

/-- An environment in which the eviction call raises. -/
def failEnv : RestartEnv :=
  ⟨Except.error "delete failed", fun _ => Except.error "unreachable"⟩

/-- A candidate whose restart fails (its environment is `failEnv`). -/
def podFail : Pod := ⟨"fail", "job-1", ⟨Phase.Running, [true]⟩⟩

/-- Per-candidate environments: candidates in namespace "fail" hit the
failing eviction, all others the succeeding one. -/
def envSelect : Pod → RestartEnv := fun p => if p.ns = "fail" then failEnv else okEnv

/-- A prefix-matched pod that is Running but whose only container flag is
false, so it fails the readiness predicate of the poller. -/
def c1Pod : Pod := ⟨"default", "app-789", ⟨Phase.Running, [false]⟩⟩

/-- An environment whose every listing contains only `c1Pod`. -/
def c1Env : RestartEnv := ⟨Except.ok (), fun _ => Except.ok [c1Pod]⟩

/-- The evicted candidate itself, still listed with phase Running. -/
def c10Pod : Pod := ⟨"default", "app-123", ⟨Phase.Running, [true]⟩⟩

/-- An environment whose every listing contains only the original candidate
`c10Pod` — no replacement instance exists. -/
def c10Env : RestartEnv := ⟨Except.ok (), fun _ => Except.ok [c10Pod]⟩

theorem splitFirst_isPrefixOf (l : List Char) :
    (splitFirst l).isPrefixOf l = true := by
  induction l with
  | nil => rfl
  | cons c cs ih =>
    simp only [splitFirst]
    split
    · rfl
    · simpa [List.isPrefixOf] using ih

theorem foldl_append_filter {α : Type} (p : α → Bool) :
    ∀ (l acc : List α),
      l.foldl (fun a x => if p x then a ++ [x] else a) acc = acc ++ l.filter p
  | [], acc => by simp
  | x :: l, acc => by
    simp only [List.foldl_cons, List.filter_cons]
    by_cases h : p x = true
    · rw [if_pos h, if_pos h, foldl_append_filter p l (acc ++ [x])]
      simp
    · rw [if_neg h, if_neg h, foldl_append_filter p l acc]

theorem restartablePods_eq_filter (P : List String) (S : List Pod) :
    restartablePods P S = S.filter (restartablePred P) := by
  unfold restartablePods
  rw [foldl_append_filter]
  simp

theorem ceil_div_step (m I : Nat) (hI : 0 < I) (hm : 0 < m) :
    (m + I - 1) / I = (m - I + I - 1) / I + 1 := by
  by_cases h : I ≤ m
  · have h1 : m - I + I - 1 = m - 1 := by omega
    have h2 : m + I - 1 = (m - 1) + I := by omega
    rw [h1, h2, Nat.add_div_right _ hI]
  · have h1 : m - I + I - 1 = I - 1 := by omega
    have h2 : (I - 1) / I = 0 := Nat.div_eq_of_lt (by omega)
    have h3 : (m + I - 1) / I = 1 := Nat.div_eq_of_lt_le (by omega) (by omega)
    rw [h1, h2, h3]

theorem waitLoop_invariant (obs : Nat → Option PodStatus) (timeout interval : Nat)
    (hI : 0 < interval) :
    ∀ n elapsed i, timeout - elapsed = n →
      ((waitLoop obs timeout interval hI elapsed i).1 = false →
        waitLoop obs timeout interval hI elapsed i =
          (false, i + (timeout - elapsed + interval - 1) / interval)) ∧
      ((waitLoop obs timeout interval hI elapsed i).1 = true →
        i + 1 ≤ (waitLoop obs timeout interval hI elapsed i).2 ∧
        ∃ j, i ≤ j ∧ checkPodReady (obs j) = true) := by
  intro n
  induction n using Nat.strong_induction_on with
  | _ n ih =>
    intro elapsed i hn
    by_cases h : elapsed < timeout
    · by_cases hc : checkPodReady (obs i) = true
      · rw [waitLoop, dif_pos h, if_pos hc]
        exact ⟨fun hf => by simp at hf, fun _ => ⟨Nat.le_refl _, i, Nat.le_refl _, hc⟩⟩
      · rw [waitLoop, dif_pos h, if_neg hc]
        have hlt : timeout - (elapsed + interval) < n := by omega
        have step := ih (timeout - (elapsed + interval)) hlt (elapsed + interval) (i + 1) rfl
        have key : i + (timeout - elapsed + interval - 1) / interval =
            (i + 1) + (timeout - (elapsed + interval) + interval - 1) / interval := by
          have hm : 0 < timeout - elapsed := by omega
          have h4 : timeout - (elapsed + interval) = timeout - elapsed - interval := by omega
          rw [h4, ceil_div_step (timeout - elapsed) interval hI hm]
          omega
        constructor
        · intro hf
          rw [key]
          exact step.1 hf
        · intro ht
          obtain ⟨hle, j, hj, hready⟩ := step.2 ht
          exact ⟨by omega, j, by omega, hready⟩
    · rw [waitLoop, dif_neg h]
      refine ⟨fun _ => ?_, fun ht => by simp at ht⟩
      have h0 : timeout - elapsed = 0 := by omega
      rw [h0, Nat.div_eq_of_lt (by omega)]
      simp

theorem succLoop_spec (listings : Nat → Except String (List Pod)) (pname : String) :
    ∀ fuel i slept,
      ((succLoop listings pname fuel i slept).1 = true ↔
        ∃ j, i ≤ j ∧ j < i + fuel ∧ attemptOk listings pname j) ∧
      ((succLoop listings pname fuel i slept).1 = false →
        succLoop listings pname fuel i slept = (false, i + fuel, slept + 5 * fuel)) ∧
      (succLoop listings pname fuel i slept).2.1 ≤ i + fuel ∧
      ((succLoop listings pname fuel i slept).1 = true →
        i + 1 ≤ (succLoop listings pname fuel i slept).2.1 ∧
        (succLoop listings pname fuel i slept).2.2 =
          slept + 5 * ((succLoop listings pname fuel i slept).2.1 - 1 - i)) := by
  intro fuel
  induction fuel with
  | zero =>
    intro i slept
    refine ⟨?_, ?_, ?_, ?_⟩
    · constructor
      · intro hf; simp [succLoop] at hf
      · rintro ⟨j, hj1, hj2, _⟩; omega
    · intro _; simp [succLoop]
    · simp [succLoop]
    · intro ht; simp [succLoop] at ht
  | succ fuel ih =>
    intro i slept
    cases hl : listings i with
    | ok pods =>
      by_cases hany : pods.any (successorMatch pname) = true
      · have hres : succLoop listings pname (fuel + 1) i slept = (true, i + 1, slept) := by
          simp [succLoop, hl, hany]
        refine ⟨?_, ?_, ?_, ?_⟩
        · rw [hres]
          constructor
          · intro _; exact ⟨i, Nat.le_refl _, by omega, pods, hl, hany⟩
          · intro _; rfl
        · intro hf; rw [hres] at hf; simp at hf
        · rw [hres]; show i + 1 ≤ i + (fuel + 1); omega
        · intro _
          rw [hres]
          refine ⟨Nat.le_refl _, ?_⟩
          show slept = slept + 5 * (i + 1 - 1 - i)
          omega
      · have hres : succLoop listings pname (fuel + 1) i slept =
            succLoop listings pname fuel (i + 1) (slept + 5) := by
          simp [succLoop, hl, hany]
        obtain ⟨ih1, ih2, ih3, ih4⟩ := ih (i + 1) (slept + 5)
        have hnoti : ¬ attemptOk listings pname i := by
          rintro ⟨pods', hp', hany'⟩
          rw [hl] at hp'
          cases hp'
          exact hany hany'
        refine ⟨?_, ?_, ?_, ?_⟩
        · rw [hres, ih1]
          constructor
          · rintro ⟨j, hj1, hj2, hok⟩; exact ⟨j, by omega, by omega, hok⟩
          · rintro ⟨j, hj1, hj2, hok⟩
            refine ⟨j, ?_, by omega, hok⟩
            rcases Nat.eq_or_lt_of_le hj1 with heq | hlt
            · exact absurd (heq ▸ hok) hnoti
            · omega
        · intro hf
          rw [hres] at hf ⊢
          rw [ih2 hf]
          have e1 : i + 1 + fuel = i + (fuel + 1) := by omega
          have e2 : slept + 5 + 5 * fuel = slept + 5 * (fuel + 1) := by omega
          rw [e1, e2]
        · rw [hres]
          calc (succLoop listings pname fuel (i + 1) (slept + 5)).2.1
              ≤ i + 1 + fuel := ih3
            _ ≤ i + (fuel + 1) := by omega
        · intro ht
          rw [hres] at ht ⊢
          obtain ⟨h1, h2⟩ := ih4 ht
          exact ⟨by omega, by rw [h2]; omega⟩
    | error e =>
      have hres : succLoop listings pname (fuel + 1) i slept =
          succLoop listings pname fuel (i + 1) (slept + 5) := by
        simp [succLoop, hl]
      obtain ⟨ih1, ih2, ih3, ih4⟩ := ih (i + 1) (slept + 5)
      have hnoti : ¬ attemptOk listings pname i := by
        rintro ⟨pods', hp', _⟩
        rw [hl] at hp'
        cases hp'
      refine ⟨?_, ?_, ?_, ?_⟩
      · rw [hres, ih1]
        constructor
        · rintro ⟨j, hj1, hj2, hok⟩; exact ⟨j, by omega, by omega, hok⟩
        · rintro ⟨j, hj1, hj2, hok⟩
          refine ⟨j, ?_, by omega, hok⟩
          rcases Nat.eq_or_lt_of_le hj1 with heq | hlt
          · exact absurd (heq ▸ hok) hnoti
          · omega
      · intro hf
        rw [hres] at hf ⊢
        rw [ih2 hf]
        have e1 : i + 1 + fuel = i + (fuel + 1) := by omega
        have e2 : slept + 5 + 5 * fuel = slept + 5 * (fuel + 1) := by omega
        rw [e1, e2]
      · rw [hres]
        calc (succLoop listings pname fuel (i + 1) (slept + 5)).2.1
            ≤ i + 1 + fuel := ih3
          _ ≤ i + (fuel + 1) := by omega
      · intro ht
        rw [hres] at ht ⊢
        obtain ⟨h1, h2⟩ := ih4 ht
        exact ⟨by omega, by rw [h2]; omega⟩

theorem runCycle_outcomes_eq_map (env : Pod → RestartEnv) :
    ∀ cands : List Pod, (runCycle env cands).outcomes = cands.map (outcomeOf env)
  | [] => rfl
  | p :: rest => by
    simp only [runCycle, List.map_cons]
    rw [runCycle_outcomes_eq_map env rest]
    rfl

theorem runCycle_counts (env : Pod → RestartEnv) :
    ∀ cands : List Pod,
      (runCycle env cands).outcomes.length = cands.length ∧
      (runCycle env cands).successCount =
        ((runCycle env cands).outcomes.filter (fun o => o.success)).length ∧
      (runCycle env cands).failCount =
        ((runCycle env cands).outcomes.filter (fun o => !o.success)).length
  | [] => by simp [runCycle]
  | p :: rest => by
    obtain ⟨ih1, ih2, ih3⟩ := runCycle_counts env rest
    by_cases h : (restart_pod (env p) p.ns p.name).1 = true
    · simp [runCycle, h, List.filter_cons, ih1, ih2, ih3]
    · simp only [Bool.not_eq_true] at h
      simp [runCycle, h, List.filter_cons, ih1, ih2, ih3]

/-- C2: the inventory filter returns exactly the subsequence of the snapshot
whose namespace is not protected and whose phase is Running or Pending,
preserving the snapshot's relative order; no protected-namespace or
other-phase instance appears, and every qualifying instance does. -/
theorem restartablePods_spec (P : List String) (S : List Pod) :
    restartablePods P S = S.filter (restartablePred P) ∧
    (restartablePods P S).Sublist S ∧
    (∀ p ∈ restartablePods P S,
      p.ns ∉ P ∧ (p.status.phase = Phase.Running ∨ p.status.phase = Phase.Pending)) ∧
    (∀ p ∈ S, p.ns ∉ P →
      (p.status.phase = Phase.Running ∨ p.status.phase = Phase.Pending) →
      p ∈ restartablePods P S) := by
  have h := restartablePods_eq_filter P S
  refine ⟨h, ?_, ?_, ?_⟩
  · rw [h]; exact List.filter_sublist S
  · intro p hp
    rw [h, List.mem_filter] at hp
    have hpred := hp.2
    simp only [restartablePred, Bool.and_eq_true, Bool.not_eq_true', Bool.or_eq_true,
      beq_iff_eq, List.contains, List.elem_eq_mem, decide_eq_false_iff_not] at hpred
    exact hpred
  · intro p hp hns hphase
    rw [h, List.mem_filter]
    refine ⟨hp, ?_⟩
    simp only [restartablePred, Bool.and_eq_true, Bool.not_eq_true', Bool.or_eq_true,
      beq_iff_eq, List.contains, List.elem_eq_mem, decide_eq_false_iff_not]
    exact ⟨hns, hphase⟩

theorem restartablePods_spec_witness :
    restartablePods system_namespaces [podApp, podSys] = [podApp] ∧
    podApp.ns ∉ system_namespaces ∧ podApp.status.phase = Phase.Running := by
  have h := restartablePods_spec system_namespaces [podApp, podSys]
  refine ⟨?_, ?_, rfl⟩
  · rw [h.1]; decide
  · exact (h.2.2.1 podApp (by decide)).1

/-- C9: the summary reports total = number of recorded outcomes (= number of
candidates), success = number of outcomes with success true, failure =
number with success false, and success + failure = total. -/
theorem runCycle_summary (env : Pod → RestartEnv) (cands : List Pod) :
    (runCycle env cands).outcomes.length = cands.length ∧
    (runCycle env cands).successCount =
      ((runCycle env cands).outcomes.filter (fun o => o.success)).length ∧
    (runCycle env cands).failCount =
      ((runCycle env cands).outcomes.filter (fun o => !o.success)).length ∧
    (runCycle env cands).successCount + (runCycle env cands).failCount = cands.length := by
  obtain ⟨h1, h2, h3⟩ := runCycle_counts env cands
  refine ⟨h1, h2, h3, ?_⟩
  rw [h2, h3, ← h1]
  have := List.length_eq_length_filter_add (l := (runCycle env cands).outcomes)
    (fun o => o.success)
  omega

/-- C4: a failure on candidate p (eviction error, successor not found, or
discovery timeout) records an outcome with success false for p and the
cycle still processes the following candidate q and every later candidate;
no per-candidate failure aborts the cycle. -/
theorem runCycle_failure_isolation (env : Pod → RestartEnv)
    (pre post : List Pod) (p q : Pod)
    (hfail : (restart_pod (env p) p.ns p.name).1 = false) :
    (runCycle env (pre ++ p :: q :: post)).outcomes =
      pre.map (outcomeOf env) ++
        ⟨p.ns, p.name, false⟩ ::
          ⟨q.ns, q.name, (restart_pod (env q) q.ns q.name).1⟩ ::
            post.map (outcomeOf env) := by
  rw [runCycle_outcomes_eq_map]
  simp [outcomeOf, hfail]

theorem runCycle_failure_isolation_witness :
    (runCycle envSelect [podFail, podApp]).outcomes =
      [⟨"fail", "job-1", false⟩, ⟨"app", "web-1", true⟩] := by
  have h := runCycle_failure_isolation envSelect [] [] podFail podApp (by decide)
  have h2 : (restart_pod (envSelect podApp) podApp.ns podApp.name).1 = true := by decide
  rw [h2] at h
  simpa [podFail, podApp] using h

/-- C3: if no observed state ever satisfies the readiness predicate, the
polling loop of wait_for_pod_ready returns False after exactly
ceil(timeout/interval) poll attempts; with the default budget 300 and the
hard-coded 5-unit sleep this is exactly ceil(timeout/5) attempts. -/
theorem wait_for_pod_ready_timeout_count (obs : Nat → Option PodStatus)
    (timeout interval : Nat) (hI : 0 < interval)
    (hobs : ∀ j, checkPodReady (obs j) = false) :
    waitLoop obs timeout interval hI 0 0 =
      (false, (timeout + interval - 1) / interval) ∧
    wait_for_pod_ready obs timeout = (false, (timeout + 5 - 1) / 5) := by
  have main : ∀ (I : Nat) (hI2 : 0 < I),
      waitLoop obs timeout I hI2 0 0 = (false, (timeout + I - 1) / I) := by
    intro I hI2
    have inv := waitLoop_invariant obs timeout I hI2 (timeout - 0) 0 0 rfl
    cases hb : (waitLoop obs timeout I hI2 0 0).1 with
    | true =>
      obtain ⟨_, j, _, hready⟩ := inv.2 hb
      rw [hobs j] at hready
      cases hready
    | false =>
      have := inv.1 hb
      simpa using this
  exact ⟨main interval hI, main 5 (by omega)⟩

theorem wait_for_pod_ready_timeout_count_witness :
    wait_for_pod_ready (fun _ => none) 300 = (false, 60) := by
  have h := (wait_for_pod_ready_timeout_count (fun _ => none) 300 5 (by omega)
    (fun j => rfl)).2
  norm_num at h
  exact h

theorem waitLoop_first_poll (obs : Nat → Option PodStatus) (timeout interval : Nat)
    (hI : 0 < interval) (ht : 0 < timeout) :
    (waitLoop obs timeout interval hI 0 0 = (true, 1)) ↔
      checkPodReady (obs 0) = true := by
  by_cases hc : checkPodReady (obs 0) = true
  · rw [waitLoop, dif_pos ht, if_pos hc]
    simp [hc]
  · rw [waitLoop, dif_pos ht, if_neg hc]
    constructor
    · intro heq
      have hfst : (waitLoop obs timeout interval hI (0 + interval) (0 + 1)).1 = true := by
        rw [heq]
      have inv := waitLoop_invariant obs timeout interval hI
        (timeout - (0 + interval)) (0 + interval) (0 + 1) rfl
      have hsnd := (inv.2 hfst).1
      rw [heq] at hsnd
      simp at hsnd
    · intro hp
      exact absurd hp hc

/-- C5: the direct-identity poller succeeds on the first poll exactly when
the observed state has phase Running with every reported container flag
true, phase Running with zero reported flags (the relaxation case), or
phase Succeeded; any other state makes polling continue. -/
theorem wait_first_poll_iff (s : PodStatus) :
    wait_for_pod_ready (fun _ => some s) 300 = (true, 1) ↔
      ((s.phase = Phase.Running ∧ s.containerStatuses ≠ [] ∧
          ∀ b ∈ s.containerStatuses, b = true) ∨
       (s.phase = Phase.Running ∧ s.containerStatuses = []) ∨
       s.phase = Phase.Succeeded) := by
  have key : wait_for_pod_ready (fun _ => some s) 300 = (true, 1) ↔
      checkPodReady (some s) = true :=
    waitLoop_first_poll (fun _ => some s) 300 5 (by omega) (by omega)
  rw [key]
  cases s with
  | mk ph cs =>
    cases ph <;> by_cases hcs : cs = [] <;> simp [checkPodReady, hcs, List.all_eq_true]

theorem wait_first_poll_iff_witness :
    wait_for_pod_ready (fun _ => some ⟨Phase.Running, []⟩) 300 = (true, 1) :=
  (wait_first_poll_iff ⟨Phase.Running, []⟩).mpr (Or.inr (Or.inl ⟨rfl, rfl⟩))

/-- C1 counterexample: successor discovery declares success for a listed
instance (prefix-matched, phase Running) whose container-readiness flags
are not all true, i.e. an instance that fails the Readiness Poller's
predicate — refuting the claim that success is declared only for instances
satisfying that predicate. -/
theorem restart_pod_succ_ignores_readiness :
    (restart_pod c1Env "default" "app-123").1 = true ∧
    checkPodReady (some c1Pod.status) = false ∧
    startsWithFirstSegment "app-123" c1Pod.name = true ∧
    c1Env.listings 0 = Except.ok [c1Pod] := by
  refine ⟨by decide, rfl, by decide, rfl⟩

/-- C1 (amended): successor discovery re-lists the namespace each attempt
and declares success exactly when some attempt among the first 30 lists an
instance whose name starts with the candidate name's first hyphen-delimited
segment and whose phase is Running or Succeeded (container-readiness flags
are not consulted); it makes at most 30 attempts, sleeping 5 time units
after every unsuccessful attempt, and on failure it has made exactly 30
attempts and slept 150 time units. -/
theorem restart_pod_discovery_spec (env : RestartEnv) (ns pname : String) :
    ((restart_pod env ns pname).1 = true ↔
      env.deleteResult = Except.ok () ∧ ∃ j, j < 30 ∧ attemptOk env.listings pname j) ∧
    ((succLoop env.listings pname 30 0 0).1 = false →
      succLoop env.listings pname 30 0 0 = (false, 30, 150)) ∧
    (succLoop env.listings pname 30 0 0).2.1 ≤ 30 ∧
    ((succLoop env.listings pname 30 0 0).1 = true →
      (succLoop env.listings pname 30 0 0).2.2 =
        5 * ((succLoop env.listings pname 30 0 0).2.1 - 1)) := by
  obtain ⟨s1, s2, s3, s4⟩ := succLoop_spec env.listings pname 30 0 0
  refine ⟨?_, ?_, by simpa using s3, ?_⟩
  · cases hd : env.deleteResult with
    | error e =>
      simp only [restart_pod, hd]
      constructor
      · intro h; cases h
      · rintro ⟨h, _⟩; cases h
    | ok u =>
      cases u
      simp only [restart_pod, hd]
      rw [s1]
      constructor
      · rintro ⟨j, _, hj2, hok⟩; exact ⟨trivial, j, by omega, hok⟩
      · rintro ⟨_, j, hj, hok⟩; exact ⟨j, by omega, by omega, hok⟩
  · intro hf
    have := s2 hf
    simpa using this
  · intro ht
    have := (s4 ht).2
    simpa using this

theorem restart_pod_discovery_spec_witness :
    (restart_pod okEnv "app" "web-1").1 = true :=
  (restart_pod_discovery_spec okEnv "app" "web-1").1.mpr
    ⟨rfl, 0, by omega, [okTarget], rfl, by decide⟩

/-- C10: every pod name starts with its own first hyphen-delimited segment,
so the successor-match predicate is satisfied by the original candidate's
own name; concretely, in a cluster state where the evicted instance is the
only one listed in its namespace (same name, phase Running), successor
discovery reports success although no replacement exists. -/
theorem successor_self_match :
    (∀ pname : String, startsWithFirstSegment pname pname = true) ∧
    (∀ n pname cs, successorMatch pname ⟨n, pname, ⟨Phase.Running, cs⟩⟩ = true) ∧
    c10Env.listings 0 = Except.ok [c10Pod] ∧
    c10Pod.name = "app-123" ∧
    (restart_pod c10Env "default" "app-123").1 = true := by
  have hself : ∀ pname : String, startsWithFirstSegment pname pname = true := by
    intro pname
    exact splitFirst_isPrefixOf pname.toList
  refine ⟨hself, ?_, rfl, rfl, by decide⟩
  intro n pname cs
  simp [successorMatch, hself pname]

/-- C6: no eviction call is ever issued before the 10-unit pre-cycle delay
has completed (in the event trace, every deleteCall is preceded by the
preCycleDelay event), and an operator interrupt during the delay aborts the
cycle with zero evictions, zero outcomes, and exit status 0. -/
theorem mainRun_precycle_gate (setup : Except Unit (List Pod)) (intr : Bool)
    (env : Pod → RestartEnv) :
    (intr = true →
      (mainRun setup intr env).events.filter isDeleteCall = [] ∧
      (mainRun setup intr env).outcomes = [] ∧
      ∀ pods, setup = Except.ok pods → (mainRun setup intr env).exitCode = 0) ∧
    (∀ i (hi : i < (mainRun setup intr env).events.length),
      isDeleteCall ((mainRun setup intr env).events.get ⟨i, hi⟩) = true →
      ∃ j, ∃ hj : j < (mainRun setup intr env).events.length,
        j < i ∧ (mainRun setup intr env).events.get ⟨j, hj⟩ = Event.preCycleDelay) := by
  cases setup with
  | error u =>
    constructor
    · intro _
      refine ⟨rfl, rfl, ?_⟩
      intro pods h
      cases h
    · intro i hi
      simp [mainRun] at hi
  | ok pods =>
    by_cases hempty : (restartablePods system_namespaces pods).isEmpty = true
    · have hm : mainRun (Except.ok pods) intr env = ⟨0, [], [], 0, 0, 0⟩ := by
        simp [mainRun, hempty]
      rw [hm]
      constructor
      · intro _
        exact ⟨rfl, rfl, fun _ _ => rfl⟩
      · intro i hi
        simp at hi
    · cases intr with
      | true =>
        have hm : mainRun (Except.ok pods) true env = ⟨0, [], [], 0, 0, 0⟩ := by
          simp [mainRun, hempty]
        rw [hm]
        constructor
        · intro _
          exact ⟨rfl, rfl, fun _ _ => rfl⟩
        · intro i hi
          simp at hi
      | false =>
        have hm : mainRun (Except.ok pods) false env =
            ⟨0, Event.preCycleDelay ::
                (runCycle env (restartablePods system_namespaces pods)).events,
              (runCycle env (restartablePods system_namespaces pods)).outcomes,
              (runCycle env (restartablePods system_namespaces pods)).successCount,
              (runCycle env (restartablePods system_namespaces pods)).failCount,
              (restartablePods system_namespaces pods).length⟩ := by
          simp [mainRun, hempty]
        rw [hm]
        constructor
        · intro h
          cases h
        · intro i hi hdel
          cases i with
          | zero => simp [isDeleteCall] at hdel
          | succ k => exact ⟨0, by simp, by omega, rfl⟩

theorem mainRun_precycle_gate_witness :
    (mainRun (Except.ok [podApp]) true envSelect).events.filter isDeleteCall = [] ∧
    (mainRun (Except.ok [podApp]) true envSelect).outcomes = [] ∧
    (mainRun (Except.ok [podApp]) true envSelect).exitCode = 0 := by
  have h := (mainRun_precycle_gate (Except.ok [podApp]) true envSelect).1 rfl
  exact ⟨h.1, h.2.1, h.2.2 [podApp] rfl⟩

/-- C7: the process exit status is non-zero exactly when the
connection/snapshot step fails; whenever the snapshot is obtained the exit
status is 0, whatever the per-candidate outcomes. -/
theorem mainRun_exit_status (setup : Except Unit (List Pod)) (intr : Bool)
    (env : Pod → RestartEnv) :
    ((mainRun setup intr env).exitCode ≠ 0 ↔ setup = Except.error ()) ∧
    ∀ pods, setup = Except.ok pods → (mainRun setup intr env).exitCode = 0 := by
  cases setup with
  | error u =>
    cases u
    constructor
    · constructor
      · intro _
        rfl
      · intro _
        simp [mainRun]
    · intro pods h
      cases h
  | ok pods =>
    have h0 : (mainRun (Except.ok pods) intr env).exitCode = 0 := by
      by_cases hempty : (restartablePods system_namespaces pods).isEmpty = true
      · simp [mainRun, hempty]
      · cases intr <;> simp [mainRun, hempty]
    constructor
    · rw [h0]
      simp
    · intro _ _
      exact h0

theorem mainRun_exit_status_witness :
    (mainRun (Except.error ()) false envSelect).exitCode ≠ 0 ∧
    (mainRun (Except.ok [podFail, podApp]) false envSelect).exitCode = 0 :=
  ⟨(mainRun_exit_status (Except.error ()) false envSelect).1.mpr rfl,
    (mainRun_exit_status (Except.ok [podFail, podApp]) false envSelect).2
      [podFail, podApp] rfl⟩

/-- C8: a query error during a single poll is treated as not-yet-ready: the
error observation fails the readiness check, the loop steps on to the next
poll, and a False result can only arise from exhausting the budget — after
the full deterministic attempt count in both poller variants. -/
theorem poll_errors_swallowed (obs : Nat → Option PodStatus) (timeout interval : Nat)
    (hI : 0 < interval) (listings : Nat → Except String (List Pod)) (pname : String) :
    checkPodReady none = false ∧
    (∀ elapsed i, elapsed < timeout → checkPodReady (obs i) = false →
      waitLoop obs timeout interval hI elapsed i =
        waitLoop obs timeout interval hI (elapsed + interval) (i + 1)) ∧
    ((waitLoop obs timeout interval hI 0 0).1 = false →
      (waitLoop obs timeout interval hI 0 0).2 = (timeout + interval - 1) / interval) ∧
    (∀ fuel i slept e, listings i = Except.error e →
      succLoop listings pname (fuel + 1) i slept =
        succLoop listings pname fuel (i + 1) (slept + 5)) ∧
    ((succLoop listings pname 30 0 0).1 = false →
      (succLoop listings pname 30 0 0).2.1 = 30) := by
  refine ⟨rfl, ?_, ?_, ?_, ?_⟩
  · intro elapsed i h hc
    conv_lhs => rw [waitLoop]
    rw [dif_pos h, if_neg (by simp [hc])]
  · intro hf
    have inv := waitLoop_invariant obs timeout interval hI (timeout - 0) 0 0 rfl
    rw [inv.1 hf]
    simp
  · intro fuel i slept e hl
    simp [succLoop, hl]
  · intro hf
    rw [(succLoop_spec listings pname 30 0 0).2.1 hf]

theorem poll_errors_swallowed_witness :
    checkPodReady none = false ∧
    waitLoop (fun _ => none) 300 5 (by omega) 0 0 =
      waitLoop (fun _ => none) 300 5 (by omega) 5 1 := by
  have h := poll_errors_swallowed (fun _ => none) 300 5 (by omega)
    (fun _ => Except.error "query failed") "web-1"
  exact ⟨h.1, h.2.1 0 0 (by omega) rfl⟩
